import Mathlib

/-!
Shallow embedding of the `WaterResourceManager` Solidity contract found in
`examples/WaterResourceManager/pages/index.tsx` of the fhevm-react-template
repository.

Modelling conventions:
- Addresses are `Nat` (0 plays the role of the zero address).
- `block.timestamp` and `msg.sender` are explicit parameters of each operation.
- Encrypted values (`euint32`) are opaque handles, modelled as `Nat` ids issued
  by a counter `nextHandle`; `handleVal` records the plaintext held behind each
  handle (`FHE.asEuint32` stores the plaintext), and `grants` is the
  append-only capability ledger written by `FHE.allowThis` / `FHE.allow`.
- Solidity `require` failures and checked-arithmetic reverts are modelled as
  `Except.error`; a reverted call leaves the pre-state in force (`applyOp`
  returns the old state on error).
- All `uint32` counters are `Nat`s; the places where Solidity 0.8 checked
  arithmetic could overflow a `uint32` counter (`nextRegionId++`,
  `totalRegions++`, `currentAllocationPeriod++`, `participatingRegions++`,
  `totalRegions--`) carry an explicit revert guard at `2 ^ 32`.
  The `uint32`-typed call arguments are in range by Solidity typing; the
  distribution arithmetic never exceeds the decrypted total, so plain `Nat`
  arithmetic coincides with `uint32` arithmetic there.
- `FHE.requestDecryption` is modelled by recording the requested handle in
  `decryptionRequests`; `FHE.checkSignatures` on the callback is modelled by a
  `signaturesValid : Bool` parameter (the runtime either authenticates the
  call or the require fails).
-/

namespace WaterResourceManager

/-- A principal that can hold a decryption capability: the contract itself
(`FHE.allowThis`) or an externally owned account (`FHE.allow`). -/
inductive Principal
  | contract
  | addr (a : Nat)
  deriving DecidableEq, Repr

/-- Revert reasons of the contract, one per `require` string plus the
checked-arithmetic revert. -/
inductive Err
  | notAuthorized
  | notDuringAllocationPeriod
  | notRegisteredManager
  | invalidRequestedAmount
  | invalidJustificationScore
  | regionAlreadySubmitted
  | invalidRegionName
  | invalidManagerAddress
  | invalidPriority
  | periodAlreadyActive
  | invalidWaterAmount
  | invalidDuration
  | noParticipatingRegions
  | distributionAlreadyCompleted
  | invalidSignatures
  | invalidRegionId
  | regionNotActive
  | invalidEmergencyAmount
  | overflow
  deriving DecidableEq, Repr

/-- The events emitted by the contract. -/
inductive Event
  | RegionRegistered (regionId : Nat) (name : String) (manager : Nat)
  | AllocationPeriodStarted (periodId : Nat) (startTime : Nat)
  | WaterRequested (regionId : Nat) (periodId : Nat) (requester : Nat)
  | WaterAllocated (regionId : Nat) (periodId : Nat) (amount : Nat)
  | AllocationCompleted (periodId : Nat) (totalRegions : Nat)
  | EmergencyAllocation (regionId : Nat) (amount : Nat)
  deriving DecidableEq, Repr

/-- `struct Region` of the contract; the three `euint32` fields hold handles. -/
structure Region where
  name : String
  waterDemand : Nat
  allocatedAmount : Nat
  priorityLevel : Nat
  isActive : Bool
  lastUpdateTime : Nat
  manager : Nat
  deriving DecidableEq, Repr

/-- `struct AllocationPeriod`; `totalAvailableWater` holds a handle and
`regionParticipated` is the per-period participation mapping. -/
structure AllocationPeriod where
  startTime : Nat
  endTime : Nat
  totalAvailableWater : Nat
  distributionCompleted : Bool
  participatingRegions : Nat
  regionParticipated : Nat → Bool

/-- `struct WaterRequest`; the two `euint32` fields hold handles. -/
structure WaterRequest where
  requestedAmount : Nat
  justificationScore : Nat
  isProcessed : Bool
  timestamp : Nat
  requester : Nat
  deriving DecidableEq, Repr

/-- The full storage of the contract together with the modelled FHE runtime
state (handle counter, plaintext table, capability ledger, pending decryption
requests) and the event log (most recent event first). -/
structure ContractState where
  authority : Nat
  currentAllocationPeriod : Nat
  lastAllocationTime : Nat
  regions : Nat → Region
  allocationPeriods : Nat → AllocationPeriod
  waterRequests : Nat → Nat → WaterRequest
  regionManagers : Nat → Nat
  regionsByPeriod : Nat → List Nat
  totalRegions : Nat
  nextRegionId : Nat
  nextHandle : Nat
  handleVal : Nat → Nat
  grants : List (Nat × Principal)
  decryptionRequests : List Nat
  events : List Event

/-- Bound of a Solidity `uint32` counter: checked arithmetic reverts when an
incremented counter would reach this value. -/
def uint32Bound : Nat := 4294967296

/-- `FHE.asEuint32`: issue a fresh handle holding the given plaintext. -/
def asEuint32 (v : Nat) (s : ContractState) : Nat × ContractState :=
  (s.nextHandle,
   { s with
     nextHandle := s.nextHandle + 1
     handleVal := fun h => if h = s.nextHandle then v else s.handleVal h })

/-- `FHE.allowThis`: record a contract-context capability on a handle. -/
def allowThis (h : Nat) (s : ContractState) : ContractState :=
  { s with grants := (h, Principal.contract) :: s.grants }

/-- `FHE.allow`: record an account capability on a handle. -/
def allow (h : Nat) (a : Nat) (s : ContractState) : ContractState :=
  { s with grants := (h, Principal.addr a) :: s.grants }

/-- Append an event to the log (most recent first). -/
def emit (e : Event) (s : ContractState) : ContractState :=
  { s with events := e :: s.events }

/-- Default value of a `Region` storage slot. -/
def emptyRegion : Region :=
  { name := "", waterDemand := 0, allocatedAmount := 0, priorityLevel := 0,
    isActive := false, lastUpdateTime := 0, manager := 0 }

/-- Default value of an `AllocationPeriod` storage slot. -/
def emptyPeriod : AllocationPeriod :=
  { startTime := 0, endTime := 0, totalAvailableWater := 0,
    distributionCompleted := false, participatingRegions := 0,
    regionParticipated := fun _ => false }

/-- Default value of a `WaterRequest` storage slot. -/
def emptyRequest : WaterRequest :=
  { requestedAmount := 0, justificationScore := 0, isProcessed := false,
    timestamp := 0, requester := 0 }

/-- The constructor: `authority = msg.sender`, `currentAllocationPeriod = 0`,
`lastAllocationTime = block.timestamp`, every mapping at its default. -/
def initialState (deployer deployTime : Nat) : ContractState :=
  { authority := deployer
    currentAllocationPeriod := 0
    lastAllocationTime := deployTime
    regions := fun _ => emptyRegion
    allocationPeriods := fun _ => emptyPeriod
    waterRequests := fun _ _ => emptyRequest
    regionManagers := fun _ => 0
    regionsByPeriod := fun _ => []
    totalRegions := 0
    nextRegionId := 1
    nextHandle := 0
    handleVal := fun _ => 0
    grants := []
    decryptionRequests := []
    events := [] }

/-- `isAllocationPeriodActive()`: false when no period was ever started,
otherwise true exactly when now is inside the inclusive window and the
distribution has not completed. A view function: it takes the state and
returns a `Bool` without producing a new state. -/
def isAllocationPeriodActive (now : Nat) (s : ContractState) : Bool :=
  if s.currentAllocationPeriod = 0 then false
  else
    let period := s.allocationPeriods s.currentAllocationPeriod
    decide (period.startTime ≤ now) && decide (now ≤ period.endTime) &&
      !period.distributionCompleted

/-- `registerRegion(name, _priorityLevel, _manager)`: authority-only creation
of a region with encrypted priority and zeroed encrypted demand/allocation;
grants the contract capability on the three fresh handles; records the
reverse `regionManagers` mapping; returns the new id. -/
def registerRegionBody (now : Nat) (name : String) (priorityLevel manager : Nat)
    (s : ContractState) : ContractState :=
    let regionId := s.nextRegionId
    let s0 := { s with nextRegionId := s.nextRegionId + 1 }
    let p1 := asEuint32 priorityLevel s0
    let encryptedPriority := p1.1
    let p2 := asEuint32 0 p1.2
    let initialDemand := p2.1
    let p3 := asEuint32 0 p2.2
    let initialAllocation := p3.1
    let s3 := p3.2
    let s4 := { s3 with
      regions := fun i => if i = regionId then
          { name := name, waterDemand := initialDemand,
            allocatedAmount := initialAllocation, priorityLevel := encryptedPriority,
            isActive := true, lastUpdateTime := now, manager := manager }
        else s3.regions i
      regionManagers := fun a => if a = manager then regionId else s3.regionManagers a
      totalRegions := s3.totalRegions + 1 }
    let s5 := allowThis encryptedPriority s4
    let s6 := allowThis initialDemand s5
    let s7 := allowThis initialAllocation s6
    emit (.RegionRegistered regionId name manager) s7

/-- `registerRegion(name, _priorityLevel, _manager)`: the guard chain, in the
order of the `require` statements, followed by the effects above; returns the
new region id together with the new state. -/
def registerRegion (sender now : Nat) (name : String) (priorityLevel manager : Nat)
    (s : ContractState) : Except Err (Nat × ContractState) :=
  if sender ≠ s.authority then .error .notAuthorized
  else if name.length = 0 then .error .invalidRegionName
  else if manager = 0 then .error .invalidManagerAddress
  else if ¬ (0 < priorityLevel ∧ priorityLevel ≤ 10) then .error .invalidPriority
  else if ¬ (s.nextRegionId + 1 < uint32Bound ∧ s.totalRegions + 1 < uint32Bound) then
    .error .overflow
  else
    .ok (s.nextRegionId, registerRegionBody now name priorityLevel manager s)

/-- `startAllocationPeriod(_totalAvailableWater, _durationHours)`: authority
only, no active period, positive pool, duration in 1..168 hours; increments
the period id, encrypts the pool total, grants the contract capability on it
and opens the window `[now, now + hours * 3600]`. -/
def startAllocationPeriodBody (now totalAvailableWater durationHours : Nat)
    (s : ContractState) : ContractState :=
    let pid := s.currentAllocationPeriod + 1
    let s0 := { s with currentAllocationPeriod := pid }
    let p1 := asEuint32 totalAvailableWater s0
    let encryptedTotalWater := p1.1
    let s1 := p1.2
    let old := s1.allocationPeriods pid
    let s2 := { s1 with
      allocationPeriods := fun i => if i = pid then
          { startTime := now, endTime := now + durationHours * 3600,
            totalAvailableWater := encryptedTotalWater,
            distributionCompleted := false, participatingRegions := 0,
            regionParticipated := old.regionParticipated }
        else s1.allocationPeriods i }
    let s3 := allowThis encryptedTotalWater s2
    emit (.AllocationPeriodStarted pid now) s3

/-- `startAllocationPeriod(_totalAvailableWater, _durationHours)`: guard chain
in `require` order, then the effects above. -/
def startAllocationPeriod (sender now totalAvailableWater durationHours : Nat)
    (s : ContractState) : Except Err ContractState :=
  if sender ≠ s.authority then .error .notAuthorized
  else if isAllocationPeriodActive now s then .error .periodAlreadyActive
  else if totalAvailableWater = 0 then .error .invalidWaterAmount
  else if ¬ (0 < durationHours ∧ durationHours ≤ 168) then .error .invalidDuration
  else if ¬ (s.currentAllocationPeriod + 1 < uint32Bound) then .error .overflow
  else
    .ok (startAllocationPeriodBody now totalAvailableWater durationHours s)

/-- `submitWaterRequest(_requestedAmount, _justificationScore)`: gated by the
`duringAllocationPeriod` modifier, then requires a nonzero reverse-index
entry for the sender, a positive amount, a score in 1..100 and no earlier
request of this region in the current period. Encrypts both values, stores
the request, updates the region demand, marks participation, appends the
region to the period walk order and grants contract and sender capabilities
on both handles. -/
def submitWaterRequestBody (sender now requestedAmount justificationScore : Nat)
    (s : ContractState) : ContractState :=
        let regionId := s.regionManagers sender
        let pid := s.currentAllocationPeriod
        let period := s.allocationPeriods pid
        let p1 := asEuint32 requestedAmount s
        let encryptedRequest := p1.1
        let p2 := asEuint32 justificationScore p1.2
        let encryptedJustification := p2.1
        let s2 := p2.2
        let s3 := { s2 with
          waterRequests := fun p r => if p = pid ∧ r = regionId then
              { requestedAmount := encryptedRequest,
                justificationScore := encryptedJustification,
                isProcessed := false, timestamp := now, requester := sender }
            else s2.waterRequests p r
          regions := fun i => if i = regionId then
              { (s2.regions regionId) with
                waterDemand := encryptedRequest
                lastUpdateTime := now }
            else s2.regions i
          allocationPeriods := fun i => if i = pid then
              { period with
                participatingRegions := period.participatingRegions + 1
                regionParticipated := fun r => if r = regionId then true
                  else period.regionParticipated r }
            else s2.allocationPeriods i
          regionsByPeriod := fun p => if p = pid then
              s2.regionsByPeriod pid ++ [regionId]
            else s2.regionsByPeriod p }
        let s4 := allowThis encryptedRequest s3
        let s5 := allowThis encryptedJustification s4
        let s6 := allow encryptedRequest sender s5
        let s7 := allow encryptedJustification sender s6
        emit (.WaterRequested regionId pid sender) s7

/-- `submitWaterRequest(_requestedAmount, _justificationScore)`: the
`duringAllocationPeriod` modifier runs first, then the `require` chain of the
body (note: no check of the region active flag appears anywhere), then the
effects above. -/
def submitWaterRequest (sender now requestedAmount justificationScore : Nat)
    (s : ContractState) : Except Err ContractState :=
  if ¬ isAllocationPeriodActive now s then .error .notDuringAllocationPeriod
  else
    let regionId := s.regionManagers sender
    if regionId = 0 then .error .notRegisteredManager
    else if requestedAmount = 0 then .error .invalidRequestedAmount
    else if ¬ (1 ≤ justificationScore ∧ justificationScore ≤ 100) then
      .error .invalidJustificationScore
    else
      let pid := s.currentAllocationPeriod
      let period := s.allocationPeriods pid
      if period.regionParticipated regionId then .error .regionAlreadySubmitted
      else if ¬ (period.participatingRegions + 1 < uint32Bound) then .error .overflow
      else
        .ok (submitWaterRequestBody sender now requestedAmount justificationScore s)

/-- `processAllocation()`: authority only, during an active period with at
least one participant and an uncompleted distribution; issues a decryption
request for the period pool handle and mutates nothing else. -/
def processAllocation (sender now : Nat) (s : ContractState) :
    Except Err ContractState :=
  if sender ≠ s.authority then .error .notAuthorized
  else if ¬ isAllocationPeriodActive now s then .error .notDuringAllocationPeriod
  else
    let period := s.allocationPeriods s.currentAllocationPeriod
    if period.participatingRegions = 0 then .error .noParticipatingRegions
    else if period.distributionCompleted then .error .distributionAlreadyCompleted
    else
      .ok { s with
        decryptionRequests := period.totalAvailableWater :: s.decryptionRequests }

/-- `_calculateAllocation(regionId, availableWater)`: zero on an empty pool,
otherwise a tenth of the remaining pool with a floor of one unit. The
`regionId` argument is unused, exactly as in the source. -/
def calculateAllocation (regionId availableWater : Nat) : Nat :=
  if availableWater = 0 then 0
  else
    let baseAllocation := availableWater / 10
    if 0 < baseAllocation then baseAllocation else 1

/-- The body of one allocating iteration of `_distributeWaterBasedOnPriority`:
encrypt the allocation, store it as the region allocation, grant contract and
manager capabilities, mark the request processed and emit `WaterAllocated`. -/
def allocateStep (pid regionId allocatedAmount : Nat) (s : ContractState) :
    ContractState :=
  let p1 := asEuint32 allocatedAmount s
  let encryptedAllocation := p1.1
  let s1 := p1.2
  let s2 := { s1 with
    regions := fun i => if i = regionId then
        { (s1.regions regionId) with allocatedAmount := encryptedAllocation }
      else s1.regions i }
  let s3 := allowThis encryptedAllocation s2
  let s4 := allow encryptedAllocation ((s3.regions regionId).manager) s3
  let s5 := { s4 with
    waterRequests := fun p r => if p = pid ∧ r = regionId then
        { (s4.waterRequests pid regionId) with isProcessed := true }
      else s4.waterRequests p r }
  emit (.WaterAllocated regionId pid allocatedAmount) s5

/-- The loop of `_distributeWaterBasedOnPriority`: walk the submitted region
ids in order while the remaining pool is positive; every unprocessed request
goes through `allocateStep`. `pid` is the value of
`currentAllocationPeriod`, which the loop body never changes. -/
def distributeLoop (pid : Nat) (ids : List Nat) (remainingWater : Nat)
    (s : ContractState) : ContractState :=
  match ids with
  | [] => s
  | regionId :: rest =>
    if remainingWater = 0 then s
    else
      let request := s.waterRequests pid regionId
      if request.isProcessed then distributeLoop pid rest remainingWater s
      else
        let allocatedAmount := calculateAllocation regionId remainingWater
        if allocatedAmount = 0 then distributeLoop pid rest remainingWater s
        else
          distributeLoop pid rest (remainingWater - allocatedAmount)
            (allocateStep pid regionId allocatedAmount s)

/-- `_distributeWaterBasedOnPriority(totalWater)`. -/
def distributeWaterBasedOnPriority (totalWater : Nat) (s : ContractState) :
    ContractState :=
  distributeLoop s.currentAllocationPeriod
    (s.regionsByPeriod s.currentAllocationPeriod) totalWater s

/-- `processAllocationCallback(requestId, totalWater, signatures)`: signature
check first (modelled by `signaturesValid`), then the replay guard on
`distributionCompleted`, then the distribution walk, the terminal completion
flag and the `AllocationCompleted` event. The `requestId` argument is only
consumed by the signature check, as in the source. -/
def processAllocationCallbackBody (totalWater : Nat) (s : ContractState) :
    ContractState :=
      let pid := s.currentAllocationPeriod
      let s1 := distributeWaterBasedOnPriority totalWater s
      let s2 := { s1 with
        allocationPeriods := fun i => if i = pid then
            { (s1.allocationPeriods pid) with distributionCompleted := true }
          else s1.allocationPeriods i }
      emit (.AllocationCompleted pid
        ((s2.allocationPeriods pid).participatingRegions)) s2

/-- The callback entry point itself: signature check, replay guard, then the
distribution walk above. -/
def processAllocationCallback (requestId totalWater : Nat) (signaturesValid : Bool)
    (s : ContractState) : Except Err ContractState :=
  if ¬ signaturesValid then .error .invalidSignatures
  else if (s.allocationPeriods s.currentAllocationPeriod).distributionCompleted then
    .error .distributionAlreadyCompleted
  else
    .ok (processAllocationCallbackBody totalWater s)

/-- `emergencyWaterAllocation(regionId, emergencyAmount)`: authority only on a
valid active region with a positive amount; unconditionally overwrites the
region allocation with a fresh handle granted to contract and manager. -/
def emergencyWaterAllocationBody (now regionId emergencyAmount : Nat)
    (s : ContractState) : ContractState :=
    let p1 := asEuint32 emergencyAmount s
    let encryptedEmergencyAmount := p1.1
    let s1 := p1.2
    let s2 := { s1 with
      regions := fun i => if i = regionId then
          { (s1.regions regionId) with
            allocatedAmount := encryptedEmergencyAmount
            lastUpdateTime := now }
        else s1.regions i }
    let s3 := allowThis encryptedEmergencyAmount s2
    let s4 := allow encryptedEmergencyAmount ((s3.regions regionId).manager) s3
    emit (.EmergencyAllocation regionId emergencyAmount) s4

/-- `emergencyWaterAllocation(regionId, emergencyAmount)`: guard chain
(authority, `validRegion`, positive amount), then the overwrite above. -/
def emergencyWaterAllocation (sender now regionId emergencyAmount : Nat)
    (s : ContractState) : Except Err ContractState :=
  if sender ≠ s.authority then .error .notAuthorized
  else if ¬ (0 < regionId ∧ regionId < s.nextRegionId) then .error .invalidRegionId
  else if ¬ (s.regions regionId).isActive then .error .regionNotActive
  else if emergencyAmount = 0 then .error .invalidEmergencyAmount
  else
    .ok (emergencyWaterAllocationBody now regionId emergencyAmount s)

/-- `deactivateRegion(regionId)`: authority only on a valid active region;
clears the active flag and decrements `totalRegions`. The reverse
`regionManagers` entry of the manager is left in place. -/
def deactivateRegionBody (regionId : Nat) (s : ContractState) : ContractState :=
  { s with
    regions := fun i => if i = regionId then
        { (s.regions regionId) with isActive := false }
      else s.regions i
    totalRegions := s.totalRegions - 1 }

/-- `deactivateRegion(regionId)`: guard chain (authority, `validRegion`,
checked decrement), then the effects above. -/
def deactivateRegion (sender regionId : Nat) (s : ContractState) :
    Except Err ContractState :=
  if sender ≠ s.authority then .error .notAuthorized
  else if ¬ (0 < regionId ∧ regionId < s.nextRegionId) then .error .invalidRegionId
  else if ¬ (s.regions regionId).isActive then .error .regionNotActive
  else if s.totalRegions = 0 then .error .overflow
  else
    .ok (deactivateRegionBody regionId s)

/-- `updateRegionManager(regionId, newManager)`: authority only on a valid
active region with a nonzero new manager; rewrites the manager field, deletes
the old reverse entry and installs the new one. -/
def updateRegionManagerBody (regionId newManager : Nat) (s : ContractState) :
    ContractState :=
  let oldManager := (s.regions regionId).manager
  { s with
    regions := fun i => if i = regionId then
        { (s.regions regionId) with manager := newManager }
      else s.regions i
    regionManagers := fun a => if a = newManager then regionId
      else if a = oldManager then 0 else s.regionManagers a }

/-- `updateRegionManager(regionId, newManager)`: guard chain (authority,
`validRegion`, nonzero manager), then the effects above. -/
def updateRegionManager (sender regionId newManager : Nat) (s : ContractState) :
    Except Err ContractState :=
  if sender ≠ s.authority then .error .notAuthorized
  else if ¬ (0 < regionId ∧ regionId < s.nextRegionId) then .error .invalidRegionId
  else if ¬ (s.regions regionId).isActive then .error .regionNotActive
  else if newManager = 0 then .error .invalidManagerAddress
  else
    .ok (updateRegionManagerBody regionId newManager s)

/-- One externally triggered call of the contract, with its caller and the
block timestamp baked in. -/
inductive Op
  | registerRegionOp (sender now : Nat) (name : String) (priorityLevel manager : Nat)
  | startAllocationPeriodOp (sender now totalAvailableWater durationHours : Nat)
  | submitWaterRequestOp (sender now requestedAmount justificationScore : Nat)
  | processAllocationOp (sender now : Nat)
  | processAllocationCallbackOp (requestId totalWater : Nat) (signaturesValid : Bool)
  | emergencyWaterAllocationOp (sender now regionId emergencyAmount : Nat)
  | deactivateRegionOp (sender regionId : Nat)
  | updateRegionManagerOp (sender regionId newManager : Nat)

/-- Whether a call succeeded. -/
def succeeds {α : Type} (r : Except Err α) : Bool :=
  match r with
  | .ok _ => true
  | .error _ => false

/-- Run a call against a state: a revert (error) leaves the state unchanged,
exactly as an EVM revert rolls the transaction back. -/
def applyOp (op : Op) (s : ContractState) : ContractState :=
  match op with
  | .registerRegionOp sender now name p m =>
    match registerRegion sender now name p m s with
    | .ok r => r.2
    | .error _ => s
  | .startAllocationPeriodOp sender now w d =>
    match startAllocationPeriod sender now w d s with
    | .ok s1 => s1
    | .error _ => s
  | .submitWaterRequestOp sender now a j =>
    match submitWaterRequest sender now a j s with
    | .ok s1 => s1
    | .error _ => s
  | .processAllocationOp sender now =>
    match processAllocation sender now s with
    | .ok s1 => s1
    | .error _ => s
  | .processAllocationCallbackOp rid w sig =>
    match processAllocationCallback rid w sig s with
    | .ok s1 => s1
    | .error _ => s
  | .emergencyWaterAllocationOp sender now r a =>
    match emergencyWaterAllocation sender now r a s with
    | .ok s1 => s1
    | .error _ => s
  | .deactivateRegionOp sender r =>
    match deactivateRegion sender r s with
    | .ok s1 => s1
    | .error _ => s
  | .updateRegionManagerOp sender r m =>
    match updateRegionManager sender r m s with
    | .ok s1 => s1
    | .error _ => s

/-- Run a sequence of calls. -/
def applyOps (ops : List Op) (s : ContractState) : ContractState :=
  ops.foldl (fun t op => applyOp op t) s

/-- Plaintext amount carried by a `WaterAllocated` event, zero on the others. -/
def eventAmount : Event → Nat
  | .WaterAllocated _ _ amount => amount
  | _ => 0

/-- Sum of all `WaterAllocated` amounts in an event log. -/
def allocatedSum (events : List Event) : Nat :=
  (events.map eventAmount).sum

/-- Project a `WaterAllocated` event to `(regionId, periodId, amount)`. -/
def allocationEventsOf : Event → Option (Nat × Nat × Nat)
  | .WaterAllocated regionId periodId amount => some (regionId, periodId, amount)
  | _ => none

/-- The `WaterAllocated` entries of the log in chronological order. -/
def waterAllocatedLog (s : ContractState) : List (Nat × Nat × Nat) :=
  s.events.reverse.filterMap allocationEventsOf

/-- Number of region slots whose active flag is set (region ids live below
`nextRegionId`). -/
def activeRegionCount (s : ContractState) : Nat :=
  ((Finset.range s.nextRegionId).filter (fun i => (s.regions i).isActive = true)).card

/-- Every handle ever issued carries a contract-context capability. -/
def selfGranted (s : ContractState) : Prop :=
  ∀ h, h < s.nextHandle → (h, Principal.contract) ∈ s.grants

/-- The reverse index is sound: a nonzero `regionManagers` entry points below
`nextRegionId` at a region whose `manager` field is that address. -/
def managerIndexOk (s : ContractState) : Prop :=
  ∀ a, s.regionManagers a ≠ 0 →
    s.regionManagers a < s.nextRegionId ∧ (s.regions (s.regionManagers a)).manager = a

/-- The operations that touch the `totalRegions` counter. -/
def touchesTotalRegions : Op → Bool
  | .registerRegionOp _ _ _ _ _ => true
  | .deactivateRegionOp _ _ => true
  | _ => false

/-- The scenario of the specification: authority 1 deploys at time 0,
registers three regions with priorities 9, 7, 5 for managers 11, 12, 13,
starts a period of 10000 units for 24 hours at time 100 and the three
managers submit requests 5000/85, 4000/70, 3000/60 in that order. -/
def demoSetupOps : List Op :=
  [ .registerRegionOp 1 0 "North" 9 11
  , .registerRegionOp 1 0 "Central" 7 12
  , .registerRegionOp 1 0 "South" 5 13
  , .startAllocationPeriodOp 1 100 10000 24
  , .submitWaterRequestOp 11 100 5000 85
  , .submitWaterRequestOp 12 100 4000 70
  , .submitWaterRequestOp 13 100 3000 60 ]

/-- State after the scenario setup calls. -/
def demoPreState : ContractState := applyOps demoSetupOps (initialState 1 0)

/-- State after `processAllocation()` issued the decryption request. -/
def demoMidState : ContractState := applyOp (.processAllocationOp 1 100) demoPreState

/-- State after the decryption callback delivered `decryptedTotal = 10000`. -/
def demoState : ContractState :=
  applyOp (.processAllocationCallbackOp 0 10000 true) demoMidState

/-- Register a region for manager 11, deactivate it, then open a period. -/
def inactiveManagerOps : List Op :=
  [ .registerRegionOp 1 0 "North" 5 11
  , .deactivateRegionOp 1 1
  , .startAllocationPeriodOp 1 100 10000 24 ]

/-- State in which manager 11 manages a deactivated region while a period is
active. -/
def inactiveManagerState : ContractState := applyOps inactiveManagerOps (initialState 1 0)

/-- Register two regions naming the same manager address 11. -/
def sharedManagerOps : List Op :=
  [ .registerRegionOp 1 0 "North" 5 11
  , .registerRegionOp 1 0 "South" 7 11 ]

/-- State in which address 11 is the manager of two active regions. -/
def sharedManagerState : ContractState := applyOps sharedManagerOps (initialState 1 0)

/-- State with one registered region, used to exercise single calls. -/
def oneRegionState : ContractState :=
  applyOps [.registerRegionOp 1 0 "North" 5 11] (initialState 1 0)

end WaterResourceManager

namespace WaterResourceManager

/-- The allocation never exceeds the pool it is drawn from. -/
theorem calculateAllocation_le (regionId availableWater : Nat) :
    calculateAllocation regionId availableWater ≤ availableWater := by
  unfold calculateAllocation
  by_cases h0 : availableWater = 0
  · simp [h0]
  · simp only [h0, if_false]
    by_cases hb : 0 < availableWater / 10
    · simpa [hb] using Nat.div_le_self availableWater 10
    · simpa [hb] using Nat.one_le_iff_ne_zero.mpr h0

/-- On a positive pool the policy is exactly a tenth with a floor of one. -/
theorem calculateAllocation_eq_max (regionId availableWater : Nat)
    (h : 0 < availableWater) :
    calculateAllocation regionId availableWater = max 1 (availableWater / 10) := by
  unfold calculateAllocation
  simp only [Nat.pos_iff_ne_zero.mp h, if_false]
  by_cases hb : 0 < availableWater / 10
  · simp [hb, Nat.max_eq_right hb]
  · simp [hb, Nat.eq_zero_of_not_pos hb]

/-- The allocation is positive whenever the pool is. -/
theorem calculateAllocation_pos (regionId availableWater : Nat)
    (h : 0 < availableWater) : 0 < calculateAllocation regionId availableWater := by
  unfold calculateAllocation
  simp only [Nat.pos_iff_ne_zero.mp h, if_false]
  by_cases hb : 0 < availableWater / 10 <;> simp [hb]

/-- The distribution loop leaves every storage component except `regions`,
`waterRequests`, the FHE tables and the event log untouched, and inside each
region record it rewrites only `allocatedAmount`. -/
theorem distributeLoop_frame (pid : Nat) (ids : List Nat) :
    ∀ (r : Nat) (s : ContractState),
      (distributeLoop pid ids r s).authority = s.authority ∧
      (distributeLoop pid ids r s).currentAllocationPeriod = s.currentAllocationPeriod ∧
      (distributeLoop pid ids r s).lastAllocationTime = s.lastAllocationTime ∧
      (distributeLoop pid ids r s).allocationPeriods = s.allocationPeriods ∧
      (distributeLoop pid ids r s).regionManagers = s.regionManagers ∧
      (distributeLoop pid ids r s).regionsByPeriod = s.regionsByPeriod ∧
      (distributeLoop pid ids r s).totalRegions = s.totalRegions ∧
      (distributeLoop pid ids r s).nextRegionId = s.nextRegionId ∧
      (distributeLoop pid ids r s).decryptionRequests = s.decryptionRequests := by
  induction ids with
  | nil => intro r s; exact ⟨rfl, rfl, rfl, rfl, rfl, rfl, rfl, rfl, rfl⟩
  | cons a rest ih =>
    intro r s
    simp only [distributeLoop]
    split
    · exact ⟨rfl, rfl, rfl, rfl, rfl, rfl, rfl, rfl, rfl⟩
    · split
      · exact ih r s
      · split
        · exact ih r s
        · exact ih _ _


/-- Within each region record the loop can rewrite only `allocatedAmount`:
all other fields survive. -/
theorem distributeLoop_regions_frame (pid : Nat) (ids : List Nat) :
    ∀ (r : Nat) (s : ContractState) (i : Nat),
      ((distributeLoop pid ids r s).regions i).isActive = (s.regions i).isActive ∧
      ((distributeLoop pid ids r s).regions i).manager = (s.regions i).manager ∧
      ((distributeLoop pid ids r s).regions i).name = (s.regions i).name ∧
      ((distributeLoop pid ids r s).regions i).waterDemand = (s.regions i).waterDemand ∧
      ((distributeLoop pid ids r s).regions i).priorityLevel = (s.regions i).priorityLevel ∧
      ((distributeLoop pid ids r s).regions i).lastUpdateTime = (s.regions i).lastUpdateTime := by
  induction ids with
  | nil => intro r s i; exact ⟨rfl, rfl, rfl, rfl, rfl, rfl⟩
  | cons a rest ih =>
    intro r s i
    simp only [distributeLoop]
    split
    · exact ⟨rfl, rfl, rfl, rfl, rfl, rfl⟩
    · split
      · exact ih r s i
      · split
        · exact ih r s i
        · refine ⟨(ih _ _ i).1.trans ?_, (ih _ _ i).2.1.trans ?_,
            (ih _ _ i).2.2.1.trans ?_, (ih _ _ i).2.2.2.1.trans ?_,
            (ih _ _ i).2.2.2.2.1.trans ?_, (ih _ _ i).2.2.2.2.2.trans ?_⟩ <;>
              by_cases hi : i = a <;> simp [hi, allocateStep, emit, allow, allowThis, asEuint32]

/-- The capability ledger only grows during the loop. -/
theorem distributeLoop_grants_mono (pid : Nat) (ids : List Nat) :
    ∀ (r : Nat) (s : ContractState) (g : Nat × Principal),
      g ∈ s.grants → g ∈ (distributeLoop pid ids r s).grants := by
  induction ids with
  | nil => intro r s g hg; exact hg
  | cons a rest ih =>
    intro r s g hg
    simp only [distributeLoop]
    split
    · exact hg
    · split
      · exact ih r s g hg
      · split
        · exact ih r s g hg
        · exact ih _ _ g (List.mem_cons_of_mem _ (List.mem_cons_of_mem _ hg))

/-- The event log only grows during the loop. -/
theorem distributeLoop_events_mono (pid : Nat) (ids : List Nat) :
    ∀ (r : Nat) (s : ContractState) (e : Event),
      e ∈ s.events → e ∈ (distributeLoop pid ids r s).events := by
  induction ids with
  | nil => intro r s e he; exact he
  | cons a rest ih =>
    intro r s e he
    simp only [distributeLoop]
    split
    · exact he
    · split
      · exact ih r s e he
      · split
        · exact ih r s e he
        · exact ih _ _ e (List.mem_cons_of_mem _ he)

/-- The handle counter never decreases during the loop. -/
theorem distributeLoop_nextHandle_mono (pid : Nat) (ids : List Nat) :
    ∀ (r : Nat) (s : ContractState),
      s.nextHandle ≤ (distributeLoop pid ids r s).nextHandle := by
  induction ids with
  | nil => intro r s; exact Nat.le_refl _
  | cons a rest ih =>
    intro r s
    simp only [distributeLoop]
    split
    · exact Nat.le_refl _
    · split
      · exact ih r s
      · split
        · exact ih r s
        · refine Nat.le_trans ?_ (ih _ _)
          exact Nat.le_succ _

/-- The plaintext behind an already issued handle never changes in the loop. -/
theorem distributeLoop_handleVal_stable (pid : Nat) (ids : List Nat) :
    ∀ (r : Nat) (s : ContractState) (h : Nat), h < s.nextHandle →
      (distributeLoop pid ids r s).handleVal h = s.handleVal h := by
  induction ids with
  | nil => intro r s h _; rfl
  | cons a rest ih =>
    intro r s h hlt
    simp only [distributeLoop]
    split
    · rfl
    · split
      · exact ih r s h hlt
      · split
        · exact ih r s h hlt
        · have hne : h ≠ s.nextHandle := Nat.ne_of_lt hlt
          refine (ih _ _ h ?_).trans ?_
          · exact Nat.lt_succ_of_lt hlt
          · simp [hne, allocateStep, emit, allow, allowThis, asEuint32]

/-- A request already marked processed stays processed and its region keeps
its allocation handle through the rest of the walk. -/
theorem distributeLoop_processed_stable (pid : Nat) (ids : List Nat) :
    ∀ (r : Nat) (s : ContractState) (q : Nat),
      (s.waterRequests pid q).isProcessed = true →
      ((distributeLoop pid ids r s).waterRequests pid q).isProcessed = true ∧
      ((distributeLoop pid ids r s).regions q).allocatedAmount
        = (s.regions q).allocatedAmount := by
  induction ids with
  | nil => intro r s q hq; exact ⟨hq, rfl⟩
  | cons a rest ih =>
    intro r s q hq
    simp only [distributeLoop]
    split
    · exact ⟨hq, rfl⟩
    · split
      · exact ih r s q hq
      · split
        · exact ih r s q hq
        · rename_i hr hp ha
          have hne : q ≠ a := fun hqa => hp (hqa ▸ hq)
          refine ⟨(ih _ _ q ?_).1, ((ih _ _ q ?_).2).trans ?_⟩
          · simpa [hne, allocateStep, emit, allow, allowThis, asEuint32] using hq
          · simpa [hne, allocateStep, emit, allow, allowThis, asEuint32] using hq
          · simp [hne, allocateStep, emit, allow, allowThis, asEuint32]


/-- What one allocating step does to the processed region. -/
theorem allocateStep_self (pid a c : Nat) (s : ContractState) :
    ((allocateStep pid a c s).waterRequests pid a).isProcessed = true ∧
    ((allocateStep pid a c s).regions a).allocatedAmount = s.nextHandle ∧
    (allocateStep pid a c s).handleVal s.nextHandle = c ∧
    Event.WaterAllocated a pid c ∈ (allocateStep pid a c s).events ∧
    (s.nextHandle, Principal.contract) ∈ (allocateStep pid a c s).grants ∧
    (s.nextHandle, Principal.addr ((s.regions a).manager))
      ∈ (allocateStep pid a c s).grants := by
  refine ⟨?_, ?_, ?_, ?_, ?_, ?_⟩ <;>
    simp [allocateStep, emit, allow, allowThis, asEuint32]

/-- One allocating step does not touch the records of other regions. -/
theorem allocateStep_other (pid a c q : Nat) (s : ContractState) (hq : q ≠ a) :
    (allocateStep pid a c s).waterRequests pid q = s.waterRequests pid q ∧
    (allocateStep pid a c s).regions q = s.regions q := by
  constructor <;> simp [allocateStep, emit, allow, allowThis, asEuint32, hq]

/-- Total amount handed out by the loop never exceeds the remaining pool it
starts from. -/
theorem distributeLoop_allocSum (pid : Nat) (ids : List Nat) :
    ∀ (r : Nat) (s : ContractState),
      allocatedSum (distributeLoop pid ids r s).events ≤ r + allocatedSum s.events := by
  induction ids with
  | nil => intro r s; exact Nat.le_add_left _ _
  | cons a rest ih =>
    intro r s
    simp only [distributeLoop]
    split
    · exact Nat.le_add_left _ _
    · split
      · exact ih r s
      · split
        · exact ih r s
        · have hle := calculateAllocation_le a r
          refine Nat.le_trans (ih _ _) ?_
          simp only [allocateStep, emit, allow, allowThis, asEuint32, allocatedSum,
            List.map_cons, List.sum_cons, eventAmount]
          omega

/-- The loop preserves the self-grant invariant of the capability ledger. -/
theorem distributeLoop_selfGranted (pid : Nat) (ids : List Nat) :
    ∀ (r : Nat) (s : ContractState), selfGranted s →
      selfGranted (distributeLoop pid ids r s) := by
  induction ids with
  | nil => intro r s hs; exact hs
  | cons a rest ih =>
    intro r s hs
    simp only [distributeLoop]
    split
    · exact hs
    · split
      · exact ih r s hs
      · split
        · exact ih r s hs
        · refine ih _ _ ?_
          intro h hlt
          have hlt2 : h < s.nextHandle + 1 := hlt
          rcases Nat.lt_succ_iff_lt_or_eq.mp hlt2 with h1 | h1
          · exact List.mem_cons_of_mem _ (List.mem_cons_of_mem _ (hs h h1))
          · subst h1
            exact List.mem_cons_of_mem _ (List.mem_cons_self _ _)

/-- Every request the loop newly marks processed received a fresh allocation
handle: the handle is stored as the region allocation, decodes to the amount
announced by a `WaterAllocated` event, and carries contract and manager
capabilities. -/
theorem distributeLoop_allocates (pid : Nat) (ids : List Nat) :
    ∀ (r : Nat) (s : ContractState) (q : Nat),
      (s.waterRequests pid q).isProcessed = false →
      ((distributeLoop pid ids r s).waterRequests pid q).isProcessed = true →
      ∃ amt,
        Event.WaterAllocated q pid amt ∈ (distributeLoop pid ids r s).events ∧
        (distributeLoop pid ids r s).handleVal
          (((distributeLoop pid ids r s).regions q).allocatedAmount) = amt ∧
        (((distributeLoop pid ids r s).regions q).allocatedAmount, Principal.contract)
          ∈ (distributeLoop pid ids r s).grants ∧
        (((distributeLoop pid ids r s).regions q).allocatedAmount,
          Principal.addr ((s.regions q).manager)) ∈ (distributeLoop pid ids r s).grants := by
  induction ids with
  | nil =>
    intro r s q h0 h1
    simp only [distributeLoop] at h1
    simp [h0] at h1
  | cons a rest ih =>
    intro r s q h0 h1
    simp only [distributeLoop] at h1 ⊢
    by_cases hr : r = 0
    · simp only [if_pos hr] at h1
      simp [h0] at h1
    · simp only [if_neg hr] at h1 ⊢
      by_cases hp : (s.waterRequests pid a).isProcessed = true
      · simp only [if_pos hp] at h1 ⊢
        exact ih r s q h0 h1
      · simp only [if_neg hp] at h1 ⊢
        by_cases ha : calculateAllocation a r = 0
        · simp only [if_pos ha] at h1 ⊢
          exact ih r s q h0 h1
        · simp only [if_neg ha] at h1 ⊢
          by_cases hq : q = a
          · subst hq
            obtain ⟨hP, hH, hV, hE, hG1, hG2⟩ :=
              allocateStep_self pid q (calculateAllocation q r) s
            obtain ⟨hstable, hAA⟩ := distributeLoop_processed_stable pid rest
              (r - calculateAllocation q r) (allocateStep pid q (calculateAllocation q r) s) q hP
            refine ⟨calculateAllocation q r, ?_, ?_, ?_, ?_⟩
            · exact distributeLoop_events_mono pid rest _ _ _ hE
            · rw [hAA, hH]
              refine (distributeLoop_handleVal_stable pid rest _ _ s.nextHandle ?_).trans hV
              exact Nat.lt_succ_self _
            · rw [hAA, hH]
              exact distributeLoop_grants_mono pid rest _ _ _ hG1
            · rw [hAA, hH]
              exact distributeLoop_grants_mono pid rest _ _ _ hG2
          · obtain ⟨hW, hR⟩ := allocateStep_other pid a (calculateAllocation a r) q s hq
            have h0a : ((allocateStep pid a (calculateAllocation a r) s).waterRequests pid q).isProcessed = false := by
              rw [hW]; exact h0
            obtain ⟨amt, hE, hV, hG1, hG2⟩ := ih _ _ q h0a h1
            refine ⟨amt, hE, hV, hG1, ?_⟩
            rw [hR] at hG2
            exact hG2


/-- A successful `registerRegion` call returns the next id and the body
state, and all guards held. -/
theorem registerRegion_ok_elim {sender now : Nat} {name : String}
    {priorityLevel manager : Nat} {s : ContractState} {v : Nat × ContractState}
    (h : registerRegion sender now name priorityLevel manager s = .ok v) :
    v = (s.nextRegionId, registerRegionBody now name priorityLevel manager s) ∧
    sender = s.authority ∧ name.length ≠ 0 ∧ manager ≠ 0 ∧
    0 < priorityLevel ∧ priorityLevel ≤ 10 := by
  simp only [registerRegion] at h
  split at h
  · simp at h
  · split at h
    · simp at h
    · split at h
      · simp at h
      · split at h
        · simp at h
        · split at h
          · simp at h
          · rename_i h1 h2 h3 h4 h5
            simp only [Except.ok.injEq] at h
            subst h
            exact ⟨rfl, not_not.mp h1, h2, h3, (not_not.mp h4).1, (not_not.mp h4).2⟩

/-- A successful `startAllocationPeriod` call returns the body state, and all
guards held. -/
theorem startAllocationPeriod_ok_elim {sender now totalAvailableWater durationHours : Nat}
    {s t : ContractState}
    (h : startAllocationPeriod sender now totalAvailableWater durationHours s = .ok t) :
    t = startAllocationPeriodBody now totalAvailableWater durationHours s ∧
    sender = s.authority ∧ isAllocationPeriodActive now s = false ∧
    totalAvailableWater ≠ 0 ∧ 0 < durationHours ∧ durationHours ≤ 168 := by
  simp only [startAllocationPeriod] at h
  split at h
  · simp at h
  · split at h
    · simp at h
    · split at h
      · simp at h
      · split at h
        · simp at h
        · split at h
          · simp at h
          · rename_i h1 h2 h3 h4 h5
            simp only [Except.ok.injEq] at h
            subst h
            exact ⟨rfl, not_not.mp h1, by simpa using h2, h3,
              (not_not.mp h4).1, (not_not.mp h4).2⟩

/-- A successful `submitWaterRequest` call returns the body state, and all
guards held. -/
theorem submitWaterRequest_ok_elim {sender now requestedAmount justificationScore : Nat}
    {s t : ContractState}
    (h : submitWaterRequest sender now requestedAmount justificationScore s = .ok t) :
    t = submitWaterRequestBody sender now requestedAmount justificationScore s ∧
    isAllocationPeriodActive now s = true ∧ s.regionManagers sender ≠ 0 ∧
    requestedAmount ≠ 0 ∧ 1 ≤ justificationScore ∧ justificationScore ≤ 100 ∧
    (s.allocationPeriods s.currentAllocationPeriod).regionParticipated
      (s.regionManagers sender) = false ∧
    (s.allocationPeriods s.currentAllocationPeriod).participatingRegions + 1
      < uint32Bound := by
  simp only [submitWaterRequest] at h
  split at h
  · simp at h
  · split at h
    · simp at h
    · split at h
      · simp at h
      · split at h
        · simp at h
        · split at h
          · simp at h
          · split at h
            · simp at h
            · rename_i h1 h2 h3 h4 h5 h6
              simp only [Except.ok.injEq] at h
              subst h
              exact ⟨rfl, not_not.mp h1, h2, h3, (not_not.mp h4).1,
                (not_not.mp h4).2, by simpa using h5, not_not.mp h6⟩

/-- A successful `processAllocation` call only records the decryption
request, and all guards held. -/
theorem processAllocation_ok_elim {sender now : Nat} {s t : ContractState}
    (h : processAllocation sender now s = .ok t) :
    t = { s with decryptionRequests :=
        (s.allocationPeriods s.currentAllocationPeriod).totalAvailableWater
          :: s.decryptionRequests } ∧
    sender = s.authority ∧ isAllocationPeriodActive now s = true ∧
    (s.allocationPeriods s.currentAllocationPeriod).participatingRegions ≠ 0 ∧
    (s.allocationPeriods s.currentAllocationPeriod).distributionCompleted = false := by
  simp only [processAllocation] at h
  split at h
  · simp at h
  · split at h
    · simp at h
    · split at h
      · simp at h
      · split at h
        · simp at h
        · rename_i h1 h2 h3 h4
          simp only [Except.ok.injEq] at h
          subst h
          exact ⟨rfl, not_not.mp h1, not_not.mp h2, h3, by simpa using h4⟩

/-- A successful callback returns the body state: the signatures were valid
and the period was not yet completed. -/
theorem processAllocationCallback_ok_elim {requestId totalWater : Nat}
    {signaturesValid : Bool} {s t : ContractState}
    (h : processAllocationCallback requestId totalWater signaturesValid s = .ok t) :
    t = processAllocationCallbackBody totalWater s ∧ signaturesValid = true ∧
    (s.allocationPeriods s.currentAllocationPeriod).distributionCompleted = false := by
  simp only [processAllocationCallback] at h
  split at h
  · simp at h
  · split at h
    · simp at h
    · rename_i h1 h2
      simp only [Except.ok.injEq] at h
      subst h
      exact ⟨rfl, not_not.mp h1, by simpa using h2⟩

/-- A successful `emergencyWaterAllocation` call returns the body state, and
all guards held. -/
theorem emergencyWaterAllocation_ok_elim {sender now regionId emergencyAmount : Nat}
    {s t : ContractState}
    (h : emergencyWaterAllocation sender now regionId emergencyAmount s = .ok t) :
    t = emergencyWaterAllocationBody now regionId emergencyAmount s ∧
    sender = s.authority ∧ 0 < regionId ∧ regionId < s.nextRegionId ∧
    (s.regions regionId).isActive = true ∧ emergencyAmount ≠ 0 := by
  simp only [emergencyWaterAllocation] at h
  split at h
  · simp at h
  · split at h
    · simp at h
    · split at h
      · simp at h
      · split at h
        · simp at h
        · rename_i h1 h2 h3 h4
          simp only [Except.ok.injEq] at h
          subst h
          exact ⟨rfl, not_not.mp h1, (not_not.mp h2).1, (not_not.mp h2).2,
            not_not.mp h3, h4⟩

/-- A successful `deactivateRegion` call returns the body state, and all
guards held. -/
theorem deactivateRegion_ok_elim {sender regionId : Nat} {s t : ContractState}
    (h : deactivateRegion sender regionId s = .ok t) :
    t = deactivateRegionBody regionId s ∧
    sender = s.authority ∧ 0 < regionId ∧ regionId < s.nextRegionId ∧
    (s.regions regionId).isActive = true ∧ s.totalRegions ≠ 0 := by
  simp only [deactivateRegion] at h
  split at h
  · simp at h
  · split at h
    · simp at h
    · split at h
      · simp at h
      · split at h
        · simp at h
        · rename_i h1 h2 h3 h4
          simp only [Except.ok.injEq] at h
          subst h
          exact ⟨rfl, not_not.mp h1, (not_not.mp h2).1, (not_not.mp h2).2,
            not_not.mp h3, h4⟩

/-- A successful `updateRegionManager` call returns the body state, and all
guards held. -/
theorem updateRegionManager_ok_elim {sender regionId newManager : Nat} {s t : ContractState}
    (h : updateRegionManager sender regionId newManager s = .ok t) :
    t = updateRegionManagerBody regionId newManager s ∧
    sender = s.authority ∧ 0 < regionId ∧ regionId < s.nextRegionId ∧
    (s.regions regionId).isActive = true ∧ newManager ≠ 0 := by
  simp only [updateRegionManager] at h
  split at h
  · simp at h
  · split at h
    · simp at h
    · split at h
      · simp at h
      · split at h
        · simp at h
        · rename_i h1 h2 h3 h4
          simp only [Except.ok.injEq] at h
          subst h
          exact ⟨rfl, not_not.mp h1, (not_not.mp h2).1, (not_not.mp h2).2,
            not_not.mp h3, h4⟩


/-- Two states with the same id bound and the same active flags have the same
active-region count. -/
theorem activeRegionCount_congr {s t : ContractState}
    (hn : t.nextRegionId = s.nextRegionId)
    (hr : ∀ i, (t.regions i).isActive = (s.regions i).isActive) :
    activeRegionCount t = activeRegionCount s := by
  unfold activeRegionCount
  rw [hn]
  congr 1
  apply Finset.filter_congr
  intro i _
  rw [hr i]

/-- A call that keeps the id bound, the counter and every active flag keeps
the counting invariant. -/
theorem activeRegionCount_eq_congr {s t : ContractState}
    (hs : activeRegionCount s = s.totalRegions)
    (hn : t.nextRegionId = s.nextRegionId)
    (ht : t.totalRegions = s.totalRegions)
    (hr : ∀ i, (t.regions i).isActive = (s.regions i).isActive) :
    activeRegionCount t = t.totalRegions := by
  rw [activeRegionCount_congr hn hr, ht, hs]

/-- Registration adds exactly one active region to the count. -/
theorem activeRegionCount_registerBody (now : Nat) (name : String)
    (priorityLevel manager : Nat) (s : ContractState) :
    activeRegionCount (registerRegionBody now name priorityLevel manager s)
      = activeRegionCount s + 1 := by
  have hn : (registerRegionBody now name priorityLevel manager s).nextRegionId
      = s.nextRegionId + 1 := rfl
  unfold activeRegionCount
  rw [hn, Finset.range_succ, Finset.filter_insert]
  have hnew : ((registerRegionBody now name priorityLevel manager s).regions
      s.nextRegionId).isActive = true := by
    simp [registerRegionBody, emit, allowThis, asEuint32]
  rw [if_pos hnew, Finset.card_insert_of_not_mem]
  · congr 1
    congr 1
    apply Finset.filter_congr
    intro i hi
    have hne : i ≠ s.nextRegionId := Nat.ne_of_lt (Finset.mem_range.mp hi)
    simp [registerRegionBody, emit, allowThis, asEuint32, hne]
  · intro hmem
    exact absurd (Finset.mem_range.mp (Finset.mem_filter.mp hmem).1) (lt_irrefl _)

/-- Deactivation removes exactly one active region from the count. -/
theorem activeRegionCount_deactivateBody (regionId : Nat) (s : ContractState)
    (h1 : regionId < s.nextRegionId) (h2 : (s.regions regionId).isActive = true) :
    activeRegionCount (deactivateRegionBody regionId s) = activeRegionCount s - 1 := by
  have hn : (deactivateRegionBody regionId s).nextRegionId = s.nextRegionId := rfl
  unfold activeRegionCount
  rw [hn]
  have hset : (Finset.range s.nextRegionId).filter
      (fun i => ((deactivateRegionBody regionId s).regions i).isActive = true)
      = ((Finset.range s.nextRegionId).filter
          (fun i => (s.regions i).isActive = true)).erase regionId := by
    ext x
    simp only [Finset.mem_erase, Finset.mem_filter]
    constructor
    · rintro ⟨hx1, hx2⟩
      by_cases hx : x = regionId
      · subst hx
        simp [deactivateRegionBody] at hx2
      · exact ⟨hx, hx1, by simpa [deactivateRegionBody, hx] using hx2⟩
    · rintro ⟨hx, hx1, hx2⟩
      exact ⟨hx1, by simpa [deactivateRegionBody, hx] using hx2⟩
  rw [hset, Finset.card_erase_of_mem]
  exact Finset.mem_filter.mpr ⟨Finset.mem_range.mpr h1, h2⟩

/-- Reverse-index soundness only depends on the index, the id bound and the
manager fields. -/
theorem managerIndexOk_congr {s t : ContractState} (hs : managerIndexOk s)
    (hm : t.regionManagers = s.regionManagers)
    (hn : t.nextRegionId = s.nextRegionId)
    (hr : ∀ i, (t.regions i).manager = (s.regions i).manager) :
    managerIndexOk t := by
  intro a ha
  rw [hm] at ha ⊢
  rw [hn, hr _]
  exact hs a ha

/-- Registration preserves reverse-index soundness. -/
theorem managerIndexOk_registerBody (now : Nat) (name : String)
    (priorityLevel manager : Nat) (s : ContractState)
    (hs : managerIndexOk s) :
    managerIndexOk (registerRegionBody now name priorityLevel manager s) := by
  intro a ha
  have hb : (registerRegionBody now name priorityLevel manager s).regionManagers a
      = if a = manager then s.nextRegionId else s.regionManagers a := rfl
  by_cases ham : a = manager
  · rw [hb, if_pos ham]
    refine ⟨Nat.lt_succ_self _, ?_⟩
    simp [registerRegionBody, emit, allowThis, asEuint32, ham]
  · rw [hb, if_neg ham] at ha ⊢
    obtain ⟨hlt, hmg⟩ := hs a ha
    have hne : s.regionManagers a ≠ s.nextRegionId := Nat.ne_of_lt hlt
    refine ⟨Nat.lt_succ_of_lt hlt, ?_⟩
    simpa [registerRegionBody, emit, allowThis, asEuint32, hne] using hmg

/-- Manager reassignment preserves reverse-index soundness. -/
theorem managerIndexOk_updateBody (regionId newManager : Nat) (s : ContractState)
    (h2 : regionId < s.nextRegionId) (hs : managerIndexOk s) :
    managerIndexOk (updateRegionManagerBody regionId newManager s) := by
  intro a ha
  have hb : (updateRegionManagerBody regionId newManager s).regionManagers a
      = if a = newManager then regionId
        else if a = (s.regions regionId).manager then 0 else s.regionManagers a := rfl
  by_cases h1 : a = newManager
  · rw [hb, if_pos h1]
    refine ⟨h2, ?_⟩
    simp [updateRegionManagerBody, h1]
  · by_cases hold : a = (s.regions regionId).manager
    · rw [hb, if_neg h1, if_pos hold] at ha
      exact absurd rfl ha
    · rw [hb, if_neg h1, if_neg hold] at ha ⊢
      obtain ⟨hlt, hmg⟩ := hs a ha
      have hne : s.regionManagers a ≠ regionId := by
        intro hx
        exact hold (by rw [← hmg, hx])
      refine ⟨hlt, ?_⟩
      simpa [updateRegionManagerBody, hne] using hmg


/-- Registration grants the contract capability on all three fresh handles. -/
theorem selfGranted_registerBody (now : Nat) (name : String)
    (priorityLevel manager : Nat) (s : ContractState) (hs : selfGranted s) :
    selfGranted (registerRegionBody now name priorityLevel manager s) := by
  intro h hlt
  have hlt3 : h < s.nextHandle + 3 := hlt
  have hcase : h < s.nextHandle ∨ h = s.nextHandle ∨ h = s.nextHandle + 1
      ∨ h = s.nextHandle + 2 := by omega
  rcases hcase with h1 | h1 | h1 | h1
  · exact List.mem_cons_of_mem _ (List.mem_cons_of_mem _
      (List.mem_cons_of_mem _ (hs h h1)))
  · subst h1
    exact List.mem_cons_of_mem _ (List.mem_cons_of_mem _ (List.mem_cons_self _ _))
  · subst h1
    exact List.mem_cons_of_mem _ (List.mem_cons_self _ _)
  · subst h1
    exact List.mem_cons_self _ _

/-- Starting a period grants the contract capability on the pool handle. -/
theorem selfGranted_startBody (now totalAvailableWater durationHours : Nat)
    (s : ContractState) (hs : selfGranted s) :
    selfGranted (startAllocationPeriodBody now totalAvailableWater durationHours s) := by
  intro h hlt
  have hlt1 : h < s.nextHandle + 1 := hlt
  have hcase : h < s.nextHandle ∨ h = s.nextHandle := by omega
  rcases hcase with h1 | h1
  · exact List.mem_cons_of_mem _ (hs h h1)
  · subst h1
    exact List.mem_cons_self _ _

/-- Submitting a request grants the contract capability on both fresh
handles. -/
theorem selfGranted_submitBody (sender now requestedAmount justificationScore : Nat)
    (s : ContractState) (hs : selfGranted s) :
    selfGranted (submitWaterRequestBody sender now requestedAmount justificationScore s) := by
  intro h hlt
  have hlt2 : h < s.nextHandle + 2 := hlt
  have hcase : h < s.nextHandle ∨ h = s.nextHandle ∨ h = s.nextHandle + 1 := by omega
  rcases hcase with h1 | h1 | h1
  · exact List.mem_cons_of_mem _ (List.mem_cons_of_mem _
      (List.mem_cons_of_mem _ (List.mem_cons_of_mem _ (hs h h1))))
  · subst h1
    exact List.mem_cons_of_mem _ (List.mem_cons_of_mem _
      (List.mem_cons_of_mem _ (List.mem_cons_self _ _)))
  · subst h1
    exact List.mem_cons_of_mem _ (List.mem_cons_of_mem _ (List.mem_cons_self _ _))

/-- The emergency override grants the contract capability on the fresh
handle. -/
theorem selfGranted_emergencyBody (now regionId emergencyAmount : Nat)
    (s : ContractState) (hs : selfGranted s) :
    selfGranted (emergencyWaterAllocationBody now regionId emergencyAmount s) := by
  intro h hlt
  have hlt1 : h < s.nextHandle + 1 := hlt
  have hcase : h < s.nextHandle ∨ h = s.nextHandle := by omega
  rcases hcase with h1 | h1
  · exact List.mem_cons_of_mem _ (List.mem_cons_of_mem _ (hs h h1))
  · subst h1
    exact List.mem_cons_of_mem _ (List.mem_cons_self _ _)

/-- The callback keeps the self-grant invariant (via the loop). -/
theorem selfGranted_callbackBody (totalWater : Nat) (s : ContractState)
    (hs : selfGranted s) : selfGranted (processAllocationCallbackBody totalWater s) := by
  intro h hlt
  exact distributeLoop_selfGranted s.currentAllocationPeriod
    (s.regionsByPeriod s.currentAllocationPeriod) totalWater s hs h hlt

set_option maxHeartbeats 2000000 in
/-- Every call preserves the self-grant invariant. -/
theorem applyOp_selfGranted (op : Op) (s : ContractState) (hs : selfGranted s) :
    selfGranted (applyOp op s) := by
  cases op with
  | registerRegionOp sender now name p m =>
    simp only [applyOp]
    split
    · rename_i v heq
      rw [(registerRegion_ok_elim heq).1]
      exact selfGranted_registerBody now name p m s hs
    · exact hs
  | startAllocationPeriodOp sender now w d =>
    simp only [applyOp]
    split
    · rename_i t heq
      rw [(startAllocationPeriod_ok_elim heq).1]
      exact selfGranted_startBody now w d s hs
    · exact hs
  | submitWaterRequestOp sender now a j =>
    simp only [applyOp]
    split
    · rename_i t heq
      rw [(submitWaterRequest_ok_elim heq).1]
      exact selfGranted_submitBody sender now a j s hs
    · exact hs
  | processAllocationOp sender now =>
    simp only [applyOp]
    split
    · rename_i t heq
      rw [(processAllocation_ok_elim heq).1]
      exact fun h hlt => hs h hlt
    · exact hs
  | processAllocationCallbackOp rid w sig =>
    simp only [applyOp]
    split
    · rename_i t heq
      rw [(processAllocationCallback_ok_elim heq).1]
      exact selfGranted_callbackBody w s hs
    · exact hs
  | emergencyWaterAllocationOp sender now r a =>
    simp only [applyOp]
    split
    · rename_i t heq
      rw [(emergencyWaterAllocation_ok_elim heq).1]
      exact selfGranted_emergencyBody now r a s hs
    · exact hs
  | deactivateRegionOp sender r =>
    simp only [applyOp]
    split
    · rename_i t heq
      rw [(deactivateRegion_ok_elim heq).1]
      exact fun h hlt => hs h hlt
    · exact hs
  | updateRegionManagerOp sender r m =>
    simp only [applyOp]
    split
    · rename_i t heq
      rw [(updateRegionManager_ok_elim heq).1]
      exact fun h hlt => hs h hlt
    · exact hs

set_option maxHeartbeats 2000000 in
/-- Every call preserves reverse-index soundness. -/
theorem applyOp_managerIndexOk (op : Op) (s : ContractState)
    (hs : managerIndexOk s) : managerIndexOk (applyOp op s) := by
  cases op with
  | registerRegionOp sender now name p m =>
    simp only [applyOp]
    split
    · rename_i v heq
      rw [(registerRegion_ok_elim heq).1]
      exact managerIndexOk_registerBody now name p m s hs
    · exact hs
  | startAllocationPeriodOp sender now w d =>
    simp only [applyOp]
    split
    · rename_i t heq
      rw [(startAllocationPeriod_ok_elim heq).1]
      exact managerIndexOk_congr hs rfl rfl (fun i => rfl)
    · exact hs
  | submitWaterRequestOp sender now a j =>
    simp only [applyOp]
    split
    · rename_i t heq
      rw [(submitWaterRequest_ok_elim heq).1]
      refine managerIndexOk_congr hs rfl rfl ?_
      intro i
      by_cases hi : i = s.regionManagers sender
      · simp [submitWaterRequestBody, emit, allow, allowThis, asEuint32, hi]
      · simp [submitWaterRequestBody, emit, allow, allowThis, asEuint32, hi]
    · exact hs
  | processAllocationOp sender now =>
    simp only [applyOp]
    split
    · rename_i t heq
      rw [(processAllocation_ok_elim heq).1]
      exact managerIndexOk_congr hs rfl rfl (fun i => rfl)
    · exact hs
  | processAllocationCallbackOp rid w sig =>
    simp only [applyOp]
    split
    · rename_i t heq
      rw [(processAllocationCallback_ok_elim heq).1]
      refine managerIndexOk_congr hs ?_ ?_ ?_
      · exact (distributeLoop_frame s.currentAllocationPeriod
          (s.regionsByPeriod s.currentAllocationPeriod) w s).2.2.2.2.1
      · exact (distributeLoop_frame s.currentAllocationPeriod
          (s.regionsByPeriod s.currentAllocationPeriod) w s).2.2.2.2.2.2.2.1
      · intro i
        exact (distributeLoop_regions_frame s.currentAllocationPeriod
          (s.regionsByPeriod s.currentAllocationPeriod) w s i).2.1
    · exact hs
  | emergencyWaterAllocationOp sender now r a =>
    simp only [applyOp]
    split
    · rename_i t heq
      rw [(emergencyWaterAllocation_ok_elim heq).1]
      refine managerIndexOk_congr hs rfl rfl ?_
      intro i
      by_cases hi : i = r
      · simp [emergencyWaterAllocationBody, emit, allow, allowThis, asEuint32, hi]
      · simp [emergencyWaterAllocationBody, emit, allow, allowThis, asEuint32, hi]
    · exact hs
  | deactivateRegionOp sender r =>
    simp only [applyOp]
    split
    · rename_i t heq
      rw [(deactivateRegion_ok_elim heq).1]
      refine managerIndexOk_congr hs rfl rfl ?_
      intro i
      by_cases hi : i = r
      · simp [deactivateRegionBody, hi]
      · simp [deactivateRegionBody, hi]
    · exact hs
  | updateRegionManagerOp sender r m =>
    simp only [applyOp]
    split
    · rename_i t heq
      obtain ⟨hv, _, _, hlt, _, _⟩ := updateRegionManager_ok_elim heq
      rw [hv]
      exact managerIndexOk_updateBody r m s hlt hs
    · exact hs

set_option maxHeartbeats 2000000 in
/-- Every call keeps `totalRegions` equal to the number of active regions. -/
theorem applyOp_activeCount (op : Op) (s : ContractState)
    (hs : activeRegionCount s = s.totalRegions) :
    activeRegionCount (applyOp op s) = (applyOp op s).totalRegions := by
  cases op with
  | registerRegionOp sender now name p m =>
    simp only [applyOp]
    split
    · rename_i v heq
      rw [(registerRegion_ok_elim heq).1]
      show activeRegionCount (registerRegionBody now name p m s)
        = (registerRegionBody now name p m s).totalRegions
      rw [activeRegionCount_registerBody, hs]
      rfl
    · exact hs
  | startAllocationPeriodOp sender now w d =>
    simp only [applyOp]
    split
    · rename_i t heq
      rw [(startAllocationPeriod_ok_elim heq).1]
      exact activeRegionCount_eq_congr hs rfl rfl (fun i => rfl)
    · exact hs
  | submitWaterRequestOp sender now a j =>
    simp only [applyOp]
    split
    · rename_i t heq
      rw [(submitWaterRequest_ok_elim heq).1]
      refine activeRegionCount_eq_congr hs rfl rfl ?_
      intro i
      by_cases hi : i = s.regionManagers sender
      · simp [submitWaterRequestBody, emit, allow, allowThis, asEuint32, hi]
      · simp [submitWaterRequestBody, emit, allow, allowThis, asEuint32, hi]
    · exact hs
  | processAllocationOp sender now =>
    simp only [applyOp]
    split
    · rename_i t heq
      rw [(processAllocation_ok_elim heq).1]
      exact activeRegionCount_eq_congr hs rfl rfl (fun i => rfl)
    · exact hs
  | processAllocationCallbackOp rid w sig =>
    simp only [applyOp]
    split
    · rename_i t heq
      rw [(processAllocationCallback_ok_elim heq).1]
      refine activeRegionCount_eq_congr hs ?_ ?_ ?_
      · exact (distributeLoop_frame s.currentAllocationPeriod
          (s.regionsByPeriod s.currentAllocationPeriod) w s).2.2.2.2.2.2.2.1
      · exact (distributeLoop_frame s.currentAllocationPeriod
          (s.regionsByPeriod s.currentAllocationPeriod) w s).2.2.2.2.2.2.1
      · intro i
        exact (distributeLoop_regions_frame s.currentAllocationPeriod
          (s.regionsByPeriod s.currentAllocationPeriod) w s i).1
    · exact hs
  | emergencyWaterAllocationOp sender now r a =>
    simp only [applyOp]
    split
    · rename_i t heq
      rw [(emergencyWaterAllocation_ok_elim heq).1]
      refine activeRegionCount_eq_congr hs rfl rfl ?_
      intro i
      by_cases hi : i = r
      · simp [emergencyWaterAllocationBody, emit, allow, allowThis, asEuint32, hi]
      · simp [emergencyWaterAllocationBody, emit, allow, allowThis, asEuint32, hi]
    · exact hs
  | deactivateRegionOp sender r =>
    simp only [applyOp]
    split
    · rename_i t heq
      obtain ⟨hv, _, _, hlt, hact, _⟩ := deactivateRegion_ok_elim heq
      rw [hv]
      show activeRegionCount (deactivateRegionBody r s)
        = (deactivateRegionBody r s).totalRegions
      rw [activeRegionCount_deactivateBody r s hlt hact, hs]
      rfl
    · exact hs
  | updateRegionManagerOp sender r m =>
    simp only [applyOp]
    split
    · rename_i t heq
      rw [(updateRegionManager_ok_elim heq).1]
      refine activeRegionCount_eq_congr hs rfl rfl ?_
      intro i
      by_cases hi : i = r
      · simp [updateRegionManagerBody, hi]
      · simp [updateRegionManagerBody, hi]
    · exact hs

/-- Any property preserved by every call holds in every reachable state. -/
theorem applyOps_invariant {P : ContractState → Prop}
    (hstep : ∀ op s, P s → P (applyOp op s)) :
    ∀ (ops : List Op) (s : ContractState), P s → P (applyOps ops s) := by
  intro ops
  induction ops with
  | nil => intro s h; exact h
  | cons op rest ih =>
    intro s h
    exact ih _ (hstep op s h)


/-- C1: processAllocationCallback walks the participating regions in
submission order; every region whose unprocessed request comes up while the
remaining pool is positive gets exactly `max 1 (remaining / 10)` (the
source policy: a truncating tenth with a floor of one), the pool shrinks by
that amount and the request is marked processed. On the specification
scenario (three requests, decryptedTotal 10000) the successive allocations
are 1000, 900 and 810, leaving 7290 undistributed, with
`distributionCompleted = true` and `participatingRegions = 3`. -/
theorem claim1_allocation_walk :
    (∀ regionId availableWater, 0 < availableWater →
      calculateAllocation regionId availableWater = max 1 (availableWater / 10)) ∧
    waterAllocatedLog demoState = [(1, 1, 1000), (2, 1, 900), (3, 1, 810)] ∧
    allocatedSum demoState.events = 2710 ∧
    10000 - allocatedSum demoState.events = 7290 ∧
    (demoState.allocationPeriods 1).distributionCompleted = true ∧
    (demoState.allocationPeriods 1).participatingRegions = 3 := by
  exact ⟨calculateAllocation_eq_max, by decide, by decide, by decide, by decide, by decide⟩

/-- Witness for C1: the policy formula evaluated on the third scenario step,
a pool of 8100 units. -/
theorem claim1_allocation_walk_witness :
    0 < 8100 ∧ calculateAllocation 3 8100 = max 1 (8100 / 10) :=
  ⟨by decide, claim1_allocation_walk.1 3 8100 (by decide)⟩

/-- C2: in every completed period the sum of all amounts allocated by the
callback is at most the decrypted total, and each single allocation is at
most the current remaining pool, so the running counter never underflows. -/
theorem claim2_conservation (requestId totalWater : Nat) (sig : Bool)
    (s t : ContractState)
    (h : processAllocationCallback requestId totalWater sig s = .ok t) :
    allocatedSum t.events ≤ totalWater + allocatedSum s.events ∧
    ∀ regionId w, 0 < w → calculateAllocation regionId w ≤ w := by
  obtain ⟨hv, _, _⟩ := processAllocationCallback_ok_elim h
  subst hv
  constructor
  · have hloop := distributeLoop_allocSum s.currentAllocationPeriod
      (s.regionsByPeriod s.currentAllocationPeriod) totalWater s
    calc allocatedSum (processAllocationCallbackBody totalWater s).events
        = allocatedSum (distributeWaterBasedOnPriority totalWater s).events := by
          simp [processAllocationCallbackBody, emit, allocatedSum, eventAmount]
      _ ≤ totalWater + allocatedSum s.events := hloop
  · intro regionId w _
    exact calculateAllocation_le regionId w

/-- Witness for C2: the scenario callback hands out 2710 of 10000 units. -/
theorem claim2_conservation_witness :
    processAllocationCallback 0 10000 true demoMidState = .ok demoState ∧
    allocatedSum demoState.events ≤ 10000 + allocatedSum demoMidState.events :=
  ⟨rfl, (claim2_conservation 0 10000 true demoMidState demoState rfl).1⟩

/-- C3: once `distributionCompleted` is true for the current period, any
further callback — even with valid signatures — fails with the
already-completed error and, since a revert rolls the whole call back,
leaves the contract state exactly unchanged. -/
theorem claim3_idempotent_callback (requestId totalWater : Nat) (s : ContractState)
    (h : (s.allocationPeriods s.currentAllocationPeriod).distributionCompleted = true) :
    processAllocationCallback requestId totalWater true s
      = .error Err.distributionAlreadyCompleted ∧
    applyOp (Op.processAllocationCallbackOp requestId totalWater true) s = s := by
  have herr : processAllocationCallback requestId totalWater true s
      = .error Err.distributionAlreadyCompleted := by
    simp [processAllocationCallback, h]
  exact ⟨herr, by simp [applyOp, herr]⟩

/-- Witness for C3: replaying the callback on the completed scenario state. -/
theorem claim3_idempotent_callback_witness :
    (demoState.allocationPeriods demoState.currentAllocationPeriod).distributionCompleted
      = true ∧
    processAllocationCallback 7 5000 true demoState
      = .error Err.distributionAlreadyCompleted ∧
    applyOp (Op.processAllocationCallbackOp 7 5000 true) demoState = demoState :=
  ⟨by decide, (claim3_idempotent_callback 7 5000 demoState (by decide)).1,
    (claim3_idempotent_callback 7 5000 demoState (by decide)).2⟩

/-- C4 counterexample: the manager of a deactivated region can still submit a
request — the code checks only `regionManagers[msg.sender] > 0` and never the
region active flag, so the claim that success requires an active region is
false: in this reachable state region 1 is inactive, yet manager 11 submits
successfully. -/
theorem claim4_counterexample :
    (inactiveManagerState.regions 1).isActive = false ∧
    inactiveManagerState.regionManagers 11 = 1 ∧
    isAllocationPeriodActive 100 inactiveManagerState = true ∧
    succeeds (submitWaterRequest 11 100 100 50 inactiveManagerState) = true := by
  decide

/-- C4 (amended): submitWaterRequest succeeds exactly when a period is
active, the sender has a nonzero `regionManagers` entry (whether or not that
region is still active), the amount is positive, the score is in 1..100 and
the region has not yet submitted this period; each singly violated
precondition yields its specific error in the code order, and any failure
leaves the state unchanged. -/
theorem claim4_submit_preconditions (sender now requestedAmount justificationScore : Nat)
    (s : ContractState)
    (hcap : (s.allocationPeriods s.currentAllocationPeriod).participatingRegions + 1
      < uint32Bound) :
    (succeeds (submitWaterRequest sender now requestedAmount justificationScore s) = true ↔
      (isAllocationPeriodActive now s = true ∧ s.regionManagers sender ≠ 0 ∧
       0 < requestedAmount ∧ 1 ≤ justificationScore ∧ justificationScore ≤ 100 ∧
       (s.allocationPeriods s.currentAllocationPeriod).regionParticipated
         (s.regionManagers sender) = false)) ∧
    (isAllocationPeriodActive now s = false →
      submitWaterRequest sender now requestedAmount justificationScore s
        = .error Err.notDuringAllocationPeriod) ∧
    (isAllocationPeriodActive now s = true → s.regionManagers sender = 0 →
      submitWaterRequest sender now requestedAmount justificationScore s
        = .error Err.notRegisteredManager) ∧
    (isAllocationPeriodActive now s = true → s.regionManagers sender ≠ 0 →
      requestedAmount = 0 →
      submitWaterRequest sender now requestedAmount justificationScore s
        = .error Err.invalidRequestedAmount) ∧
    (isAllocationPeriodActive now s = true → s.regionManagers sender ≠ 0 →
      0 < requestedAmount → ¬ (1 ≤ justificationScore ∧ justificationScore ≤ 100) →
      submitWaterRequest sender now requestedAmount justificationScore s
        = .error Err.invalidJustificationScore) ∧
    (isAllocationPeriodActive now s = true → s.regionManagers sender ≠ 0 →
      0 < requestedAmount → 1 ≤ justificationScore → justificationScore ≤ 100 →
      (s.allocationPeriods s.currentAllocationPeriod).regionParticipated
        (s.regionManagers sender) = true →
      submitWaterRequest sender now requestedAmount justificationScore s
        = .error Err.regionAlreadySubmitted) ∧
    (succeeds (submitWaterRequest sender now requestedAmount justificationScore s) = false →
      applyOp (Op.submitWaterRequestOp sender now requestedAmount justificationScore) s = s) := by
  refine ⟨⟨?_, ?_⟩, ?_, ?_, ?_, ?_, ?_, ?_⟩
  · intro hok
    cases hres : submitWaterRequest sender now requestedAmount justificationScore s with
    | ok t =>
      obtain ⟨_, h1, h2, h3, h4, h5, h6, _⟩ := submitWaterRequest_ok_elim hres
      exact ⟨h1, h2, Nat.pos_of_ne_zero h3, h4, h5, h6⟩
    | error e =>
      rw [hres] at hok
      simp [succeeds] at hok
  · rintro ⟨h1, h2, h3, h4, h5, h6⟩
    simp [submitWaterRequest, succeeds, h1, h2, Nat.pos_iff_ne_zero.mp h3, h4, h5, h6,
      hcap]
  · intro h1
    simp [submitWaterRequest, h1]
  · intro h1 h2
    simp [submitWaterRequest, h1, h2]
  · intro h1 h2 h3
    simp [submitWaterRequest, h1, h2, h3]
  · intro h1 h2 h3 h4
    simp [submitWaterRequest, h1, h2, Nat.pos_iff_ne_zero.mp h3, h4]
  · intro h1 h2 h3 h4 h5 h6
    simp [submitWaterRequest, h1, h2, Nat.pos_iff_ne_zero.mp h3, h4, h5, h6]
  · intro hfail
    cases hres : submitWaterRequest sender now requestedAmount justificationScore s with
    | ok t =>
      rw [hres] at hfail
      simp [succeeds] at hfail
    | error e =>
      simp [applyOp, hres]

/-- Witness for C4: with no period ever started, a submission fails with the
no-active-period error. -/
theorem claim4_submit_preconditions_witness :
    ((initialState 1 0).allocationPeriods
      (initialState 1 0).currentAllocationPeriod).participatingRegions + 1
      < uint32Bound ∧
    submitWaterRequest 5 0 10 50 (initialState 1 0)
      = .error Err.notDuringAllocationPeriod :=
  ⟨by decide,
    (claim4_submit_preconditions 5 0 10 50 (initialState 1 0) (by decide)).2.1 (by decide)⟩

/-- C5 counterexample: registering a second region for the same manager
address silently overwrites the reverse index, leaving address 11 as the
`manager` field of the two active regions 1 and 2 at once — the claimed
at-most-one-active-region-per-manager property fails on this reachable
state. -/
theorem claim5_counterexample :
    (sharedManagerState.regions 1).isActive = true ∧
    (sharedManagerState.regions 2).isActive = true ∧
    (sharedManagerState.regions 1).manager = 11 ∧
    (sharedManagerState.regions 2).manager = 11 ∧
    (1 : Nat) ≠ 2 := by
  decide

/-- C5 (amended): the `regionManagers` reverse index, being a mapping, points
each manager address to at most one region, and it is sound in every
reachable state — a nonzero entry points below `nextRegionId` at a region
whose `manager` field is that address; but the converse 1:1 property (at
most one active region managed per address) is not enforced. -/
theorem claim5_reverse_index_sound (deployer deployTime : Nat) (ops : List Op)
    (a : Nat)
    (ha : (applyOps ops (initialState deployer deployTime)).regionManagers a ≠ 0) :
    (applyOps ops (initialState deployer deployTime)).regionManagers a
      < (applyOps ops (initialState deployer deployTime)).nextRegionId ∧
    ((applyOps ops (initialState deployer deployTime)).regions
      ((applyOps ops (initialState deployer deployTime)).regionManagers a)).manager
      = a := by
  have hinv : managerIndexOk (applyOps ops (initialState deployer deployTime)) := by
    refine applyOps_invariant applyOp_managerIndexOk ops _ ?_
    intro x hx
    exact absurd rfl hx
  exact hinv a ha

/-- Witness for C5: the soundness facts at the shared-manager state. -/
theorem claim5_reverse_index_sound_witness :
    sharedManagerState.regionManagers 11 ≠ 0 ∧
    (sharedManagerState.regionManagers 11 < sharedManagerState.nextRegionId ∧
     (sharedManagerState.regions (sharedManagerState.regionManagers 11)).manager = 11) :=
  ⟨by decide, claim5_reverse_index_sound 1 0 sharedManagerOps 11 (by decide)⟩

/-- C6 counterexample: the three encrypted fields created by registerRegion
(handles 0, 1, 2: priority, demand, allocation of region 1, whose owning
manager is address 11) receive only contract self-grants — no grant to the
owning manager is issued at creation, refuting the claim that every creation
site grants the owning manager where one exists. -/
theorem claim6_counterexample :
    (oneRegionState.regions 1).manager = 11 ∧
    (oneRegionState.regions 1).priorityLevel = 0 ∧
    (oneRegionState.regions 1).waterDemand = 1 ∧
    (oneRegionState.regions 1).allocatedAmount = 2 ∧
    ((0, Principal.contract) ∈ oneRegionState.grants ∧
     (1, Principal.contract) ∈ oneRegionState.grants ∧
     (2, Principal.contract) ∈ oneRegionState.grants) ∧
    (¬ (0, Principal.addr 11) ∈ oneRegionState.grants ∧
     ¬ (1, Principal.addr 11) ∈ oneRegionState.grants ∧
     ¬ (2, Principal.addr 11) ∈ oneRegionState.grants) := by
  decide

/-- C6 (amended): every handle ever created carries a contract self-grant in
every reachable state; handles created in submitWaterRequest additionally
carry a grant to the submitting manager, handles created in the allocation
callback a grant to the allocated region manager, and the emergency handle a
grant to the target region manager — but registerRegion grants only
self-capability on its three fresh handles. -/
theorem claim6_capability_grants :
    (∀ (deployer deployTime : Nat) (ops : List Op) (h : Nat),
      h < (applyOps ops (initialState deployer deployTime)).nextHandle →
      (h, Principal.contract) ∈ (applyOps ops (initialState deployer deployTime)).grants) ∧
    (∀ sender now requestedAmount justificationScore s t,
      submitWaterRequest sender now requestedAmount justificationScore s = .ok t →
      (s.nextHandle, Principal.contract) ∈ t.grants ∧
      (s.nextHandle + 1, Principal.contract) ∈ t.grants ∧
      (s.nextHandle, Principal.addr sender) ∈ t.grants ∧
      (s.nextHandle + 1, Principal.addr sender) ∈ t.grants) ∧
    (∀ sender now regionId emergencyAmount s t,
      emergencyWaterAllocation sender now regionId emergencyAmount s = .ok t →
      (s.nextHandle, Principal.contract) ∈ t.grants ∧
      (s.nextHandle, Principal.addr ((s.regions regionId).manager)) ∈ t.grants) ∧
    (∀ requestId totalWater sig s t regionId,
      processAllocationCallback requestId totalWater sig s = .ok t →
      (s.waterRequests s.currentAllocationPeriod regionId).isProcessed = false →
      (t.waterRequests s.currentAllocationPeriod regionId).isProcessed = true →
      ((t.regions regionId).allocatedAmount, Principal.contract) ∈ t.grants ∧
      ((t.regions regionId).allocatedAmount,
        Principal.addr ((s.regions regionId).manager)) ∈ t.grants) := by
  refine ⟨?_, ?_, ?_, ?_⟩
  · intro deployer deployTime ops h hlt
    have hinv : selfGranted (applyOps ops (initialState deployer deployTime)) := by
      refine applyOps_invariant applyOp_selfGranted ops _ ?_
      intro x hx
      exact absurd hx (Nat.not_lt_zero x)
    exact hinv h hlt
  · intro sender now requestedAmount justificationScore s t hok
    rw [(submitWaterRequest_ok_elim hok).1]
    refine ⟨?_, ?_, ?_, ?_⟩ <;>
      simp [submitWaterRequestBody, emit, allow, allowThis, asEuint32]
  · intro sender now regionId emergencyAmount s t hok
    rw [(emergencyWaterAllocation_ok_elim hok).1]
    constructor <;>
      simp [emergencyWaterAllocationBody, emit, allow, allowThis, asEuint32]
  · intro requestId totalWater sig s t regionId hok h0 h1
    obtain ⟨hv, _, _⟩ := processAllocationCallback_ok_elim hok
    subst hv
    obtain ⟨amt, _, _, hG1, hG2⟩ := distributeLoop_allocates s.currentAllocationPeriod
      (s.regionsByPeriod s.currentAllocationPeriod) totalWater s regionId h0 h1
    exact ⟨hG1, hG2⟩

/-- Witness for C6: the emergency-allocation conjunct on the one-region
state. -/
theorem claim6_capability_grants_witness :
    emergencyWaterAllocation 1 7 1 500 oneRegionState
      = .ok (applyOp (Op.emergencyWaterAllocationOp 1 7 1 500) oneRegionState) ∧
    (oneRegionState.nextHandle, Principal.contract)
      ∈ (applyOp (Op.emergencyWaterAllocationOp 1 7 1 500) oneRegionState).grants ∧
    (oneRegionState.nextHandle, Principal.addr ((oneRegionState.regions 1).manager))
      ∈ (applyOp (Op.emergencyWaterAllocationOp 1 7 1 500) oneRegionState).grants := by
  refine ⟨rfl, ?_, ?_⟩
  · exact (claim6_capability_grants.2.2.1 1 7 1 500 oneRegionState _ rfl).1
  · exact (claim6_capability_grants.2.2.1 1 7 1 500 oneRegionState _ rfl).2

/-- C7: isAllocationPeriodActive is true exactly when a period exists, now
lies in the inclusive `[startTime, endTime]` window and the distribution is
not completed; in the embedding it is a plain function of the state and
returns no modified state. -/
theorem claim7_isActive_iff (now : Nat) (s : ContractState) :
    isAllocationPeriodActive now s = true ↔
      (0 < s.currentAllocationPeriod ∧
       (s.allocationPeriods s.currentAllocationPeriod).startTime ≤ now ∧
       now ≤ (s.allocationPeriods s.currentAllocationPeriod).endTime ∧
       (s.allocationPeriods s.currentAllocationPeriod).distributionCompleted = false) := by
  unfold isAllocationPeriodActive
  by_cases h0 : s.currentAllocationPeriod = 0
  · simp [h0]
  · have hpos : 0 < s.currentAllocationPeriod := Nat.pos_of_ne_zero h0
    simp [h0, hpos, Bool.and_eq_true, decide_eq_true_eq, Bool.not_eq_true',
      and_assoc]

/-- C8: a successful processAllocation only records the decryption request
for the period pool handle; regions, requests, periods, counters, FHE tables
and the event log are untouched. -/
theorem claim8_processAllocation_frame (sender now : Nat) (s t : ContractState)
    (h : processAllocation sender now s = .ok t) :
    t.regions = s.regions ∧ t.waterRequests = s.waterRequests ∧
    t.allocationPeriods = s.allocationPeriods ∧ t.regionManagers = s.regionManagers ∧
    t.regionsByPeriod = s.regionsByPeriod ∧ t.totalRegions = s.totalRegions ∧
    t.nextRegionId = s.nextRegionId ∧
    t.currentAllocationPeriod = s.currentAllocationPeriod ∧
    t.authority = s.authority ∧ t.nextHandle = s.nextHandle ∧
    t.handleVal = s.handleVal ∧ t.grants = s.grants ∧ t.events = s.events ∧
    t.lastAllocationTime = s.lastAllocationTime ∧
    t.decryptionRequests =
      (s.allocationPeriods s.currentAllocationPeriod).totalAvailableWater
        :: s.decryptionRequests := by
  rw [(processAllocation_ok_elim h).1]
  exact ⟨rfl, rfl, rfl, rfl, rfl, rfl, rfl, rfl, rfl, rfl, rfl, rfl, rfl, rfl, rfl⟩

/-- Witness for C8: the scenario processAllocation call. -/
theorem claim8_processAllocation_frame_witness :
    processAllocation 1 100 demoPreState = .ok demoMidState ∧
    demoMidState.regions = demoPreState.regions ∧
    demoMidState.events = demoPreState.events ∧
    demoMidState.decryptionRequests =
      (demoPreState.allocationPeriods
        demoPreState.currentAllocationPeriod).totalAvailableWater
        :: demoPreState.decryptionRequests := by
  refine ⟨rfl, ?_, ?_, ?_⟩
  · exact (claim8_processAllocation_frame 1 100 demoPreState demoMidState rfl).1
  · exact (claim8_processAllocation_frame 1 100 demoPreState demoMidState
      rfl).2.2.2.2.2.2.2.2.2.2.2.2.1
  · exact (claim8_processAllocation_frame 1 100 demoPreState demoMidState
      rfl).2.2.2.2.2.2.2.2.2.2.2.2.2.2

/-- C9: every region processed inside the callback gets a WaterAllocated
event whose amount is the plaintext behind the encrypted allocation handle
stored for that region, so the per-region amounts are publicly observable in
the log. -/
theorem claim9_allocation_events (requestId totalWater : Nat) (sig : Bool)
    (s t : ContractState) (regionId : Nat)
    (h : processAllocationCallback requestId totalWater sig s = .ok t)
    (h0 : (s.waterRequests s.currentAllocationPeriod regionId).isProcessed = false)
    (h1 : (t.waterRequests s.currentAllocationPeriod regionId).isProcessed = true) :
    ∃ amt, Event.WaterAllocated regionId s.currentAllocationPeriod amt ∈ t.events ∧
      t.handleVal ((t.regions regionId).allocatedAmount) = amt := by
  obtain ⟨hv, _, _⟩ := processAllocationCallback_ok_elim h
  subst hv
  obtain ⟨amt, hE, hV, _, _⟩ := distributeLoop_allocates s.currentAllocationPeriod
    (s.regionsByPeriod s.currentAllocationPeriod) totalWater s regionId h0 h1
  exact ⟨amt, List.mem_cons_of_mem _ hE, hV⟩

/-- Witness for C9: region 1 in the scenario callback. -/
theorem claim9_allocation_events_witness :
    processAllocationCallback 0 10000 true demoMidState = .ok demoState ∧
    (demoMidState.waterRequests demoMidState.currentAllocationPeriod 1).isProcessed
      = false ∧
    (demoState.waterRequests demoMidState.currentAllocationPeriod 1).isProcessed
      = true ∧
    ∃ amt, Event.WaterAllocated 1 demoMidState.currentAllocationPeriod amt
        ∈ demoState.events ∧
      demoState.handleVal ((demoState.regions 1).allocatedAmount) = amt := by
  refine ⟨rfl, by decide, by decide, ?_⟩
  exact claim9_allocation_events 0 10000 true demoMidState demoState 1 rfl
    (by decide) (by decide)

/-- C10: in every reachable state `totalRegions` equals the number of active
regions; registerRegion adds one active region and increments the counter,
deactivateRegion — only callable on an active region — flips the flag and
decrements it, and no other operation changes the counter. -/
theorem claim10_totalRegions_counts :
    (∀ (deployer deployTime : Nat) (ops : List Op),
      activeRegionCount (applyOps ops (initialState deployer deployTime))
        = (applyOps ops (initialState deployer deployTime)).totalRegions) ∧
    (∀ (sender now : Nat) (name : String) (priorityLevel manager : Nat)
        (s : ContractState) (rid : Nat) (t : ContractState),
      registerRegion sender now name priorityLevel manager s = .ok (rid, t) →
      t.totalRegions = s.totalRegions + 1 ∧ (t.regions rid).isActive = true) ∧
    (∀ (sender regionId : Nat) (s t : ContractState),
      deactivateRegion sender regionId s = .ok t →
      (s.regions regionId).isActive = true ∧ (t.regions regionId).isActive = false ∧
      t.totalRegions = s.totalRegions - 1) ∧
    (∀ (op : Op) (s : ContractState), touchesTotalRegions op = false →
      (applyOp op s).totalRegions = s.totalRegions) := by
  refine ⟨?_, ?_, ?_, ?_⟩
  · intro deployer deployTime ops
    refine applyOps_invariant applyOp_activeCount ops _ ?_
    simp [activeRegionCount, initialState, emptyRegion]
  · intro sender now name priorityLevel manager s rid t h
    obtain ⟨hv, _⟩ := registerRegion_ok_elim h
    rw [Prod.mk.injEq] at hv
    obtain ⟨hrid, ht⟩ := hv
    subst hrid
    subst ht
    exact ⟨rfl, by simp [registerRegionBody, emit, allowThis, asEuint32]⟩
  · intro sender regionId s t h
    obtain ⟨hv, _, _, _, hact, _⟩ := deactivateRegion_ok_elim h
    subst hv
    exact ⟨hact, by simp [deactivateRegionBody], rfl⟩
  · intro op s hop
    cases op with
    | registerRegionOp sender now name p m => simp [touchesTotalRegions] at hop
    | deactivateRegionOp sender r => simp [touchesTotalRegions] at hop
    | startAllocationPeriodOp sender now w d =>
      simp only [applyOp]
      split
      · rename_i t heq
        rw [(startAllocationPeriod_ok_elim heq).1]
        rfl
      · rfl
    | submitWaterRequestOp sender now a j =>
      simp only [applyOp]
      split
      · rename_i t heq
        rw [(submitWaterRequest_ok_elim heq).1]
        rfl
      · rfl
    | processAllocationOp sender now =>
      simp only [applyOp]
      split
      · rename_i t heq
        rw [(processAllocation_ok_elim heq).1]
      · rfl
    | processAllocationCallbackOp rid w sig =>
      simp only [applyOp]
      split
      · rename_i t heq
        rw [(processAllocationCallback_ok_elim heq).1]
        exact (distributeLoop_frame s.currentAllocationPeriod
          (s.regionsByPeriod s.currentAllocationPeriod) w s).2.2.2.2.2.2.1
      · rfl
    | emergencyWaterAllocationOp sender now r a =>
      simp only [applyOp]
      split
      · rename_i t heq
        rw [(emergencyWaterAllocation_ok_elim heq).1]
        rfl
      · rfl
    | updateRegionManagerOp sender r m =>
      simp only [applyOp]
      split
      · rename_i t heq
        rw [(updateRegionManager_ok_elim heq).1]
        rfl
      · rfl

/-- Witness for C10: processAllocation does not touch the counter. -/
theorem claim10_totalRegions_counts_witness :
    touchesTotalRegions (Op.processAllocationOp 1 100) = false ∧
    (applyOp (Op.processAllocationOp 1 100) demoPreState).totalRegions
      = demoPreState.totalRegions :=
  ⟨by decide, claim10_totalRegions_counts.2.2.2 (Op.processAllocationOp 1 100)
    demoPreState (by decide)⟩

end WaterResourceManager
